import Mathlib

/-!
Shallow embedding of the eg-sampler LV2 plugin core
(src/plugins/eg-sampler.lv2/sampler.c).

The embedding models the plugin state (struct Sampler), the loader
routine handle_load_sample, and the real-time routine run.  Sample
values are opaque payload the code never computes with; they are
modelled as rationals so that equality of buffers and outputs is
decidable.  The external libsndfile decoder is modelled as a function
from file paths to an open result (failure, or an SF_INFO record
together with the float content sf_read_float would deliver), and the
possibility of malloc failure inside the loader is an explicit boolean
parameter.  Out-of-bounds writes through List.set are no-ops in the
model (the C program would have undefined behaviour there); theorems
carry the bounds hypotheses under which the C code is well defined.
-/

namespace EgSampler

/-- SF_INFO metadata as used by sampler.c: frame count and channel count. -/
structure SFInfo where
  frames   : Nat
  channels : Nat
  deriving DecidableEq, Repr

/-- struct SampleFile: file path, SF_INFO metadata, and decoded sample data.
The C field data is a float pointer; a NULL or freed pointer is modelled as
the empty list. -/
structure SampleFile where
  filepath : String
  info     : SFInfo
  data     : List Rat
  deriving DecidableEq, Repr

/-- struct Sampler, restricted to the fields the core logic reads and
writes: the active buffer samp, the pending buffer pending_samp, the
ready flag, and the playback state (play, frame). -/
structure Sampler where
  samp                 : SampleFile
  pending_samp         : SampleFile
  pending_sample_ready : Bool
  play                 : Bool
  frame                : Nat
  deriving DecidableEq, Repr

/-- Result of sf_open on a path: failure, or the SF_INFO of the file
together with the float content that sf_read_float would return. -/
inductive SfOpen where
  | fail
  | ok (info : SFInfo) (content : List Rat)
  deriving DecidableEq, Repr

/-- handle_load_sample (sampler.c lines 102-138).  The filesystem is a
function fs from paths to SfOpen results; allocOk tells whether the
malloc of the data buffer succeeds.  Mirrors the C control flow:
clear the ready flag; open the pending path; on open failure return;
sf_open writes the SF_INFO of the opened file into pending_samp.info,
then the zero-frame and channel checks may return; the data pointer is
replaced (NULL on malloc failure); sf_read_float reads info.frames
floats; finally the ready flag is raised. -/
def handle_load_sample (plugin : Sampler) (fs : String → SfOpen)
    (allocOk : Bool) : Sampler :=
  let plugin := { plugin with pending_sample_ready := false }
  match fs plugin.pending_samp.filepath with
  | .fail => plugin
  | .ok info content =>
    if info.frames = 0 ∨ info.channels ≠ 1 then
      { plugin with pending_samp := { plugin.pending_samp with info := info } }
    else if allocOk then
      { plugin with
        pending_samp := { plugin.pending_samp with
                          info := info,
                          data := content.take info.frames },
        pending_sample_ready := true }
    else
      { plugin with
        pending_samp := { plugin.pending_samp with info := info, data := [] } }

/-- Whether handle_load_sample succeeds: the file opens, has a nonzero
frame count and exactly one channel, and the allocation succeeds. -/
def load_succeeds (plugin : Sampler) (fs : String → SfOpen)
    (allocOk : Bool) : Bool :=
  match fs plugin.pending_samp.filepath with
  | .fail => false
  | .ok info _ => !(info.frames = 0 ∨ info.channels ≠ 1 : Bool) && allocOk

/-- One incoming atom event, as dispatched by run (sampler.c lines
270-317): a MIDI event carrying its first data byte; a message:Set
object whose body may be missing, or present but lacking the filename
property, or carry a filename string; an atom object of some other type
(carrying obj.id, which the C code prints); or an event of unknown
type. -/
inductive Event where
  | midi (time : Nat) (status : Nat)
  | objSet (time : Nat) (body : Option (Option String))
  | objOther (time : Nat) (objId : Nat)
  | other (time : Nat) (etype : Nat)
  deriving DecidableEq, Repr

/-- State threaded through the event loop of run: the plugin state, the
local start_frame, the paths posted to the worker semaphore (each
zix_sem_post together with the path written just before it), and the
stderr log. -/
structure EvState where
  plug        : Sampler
  start_frame : Nat
  posts       : List String
  log         : List String
  deriving DecidableEq, Repr

/-- One iteration of the event loop of run (sampler.c lines 270-317).
A MIDI event whose status byte has high nibble 0x9 records its time as
start_frame and restarts playback at frame 0; a Set message with a
filename writes the pending path and posts the semaphore; malformed or
unknown events are logged and otherwise skipped. -/
def processEvent (es : EvState) (ev : Event) : EvState :=
  match ev with
  | .midi t status =>
    if status &&& 0xF0 = 0x90 then
      { es with
        start_frame := t,
        plug := { es.plug with frame := 0, play := true } }
    else
      es
  | .objSet _ none =>
    { es with log := es.log ++ ["Malformed set message with no body."] }
  | .objSet _ (some none) =>
    { es with log := es.log ++ ["Ignored set message with no filename"] }
  | .objSet _ (some (some str)) =>
    { es with
      plug := { es.plug with
                pending_samp := { es.plug.pending_samp with filepath := str } },
      posts := es.posts ++ [str],
      log := es.log ++ ["Request to load " ++ str] }
  | .objOther _ objId =>
    { es with log := es.log ++ ["Unknown message type " ++ toString objId] }
  | .other _ etype =>
    { es with log := es.log ++ ["Unknown event type " ++ toString etype] }

/-- The whole event loop of run over the atom sequence of the block. -/
def processEvents (plugin : Sampler) (events : List Event) : EvState :=
  events.foldl processEvent
    { plug := plugin, start_frame := 0, posts := [], log := [] }

/-- Iterations of the body of the zero-fill loop of run: n remaining
iterations, each setting output[pos] to 0 and incrementing pos. -/
def zeroRangeAux : Nat → List Rat → Nat → List Rat
  | 0, out, _ => out
  | n + 1, out, pos => zeroRangeAux n (out.set pos 0) (pos + 1)

/-- The loop for (pos = 0; pos < start_frame; ++pos) output[pos] = 0,
generalised to an arbitrary starting pos: zero the slots pos, ...,
stop - 1 of the output buffer.  The loop runs stop - pos times; the
theorem zeroRange_eq_loop below shows this definition satisfies the
guard-form recurrence of the C loop. -/
def zeroRange (out : List Rat) (pos stop : Nat) : List Rat :=
  zeroRangeAux (stop - pos) out pos

/-- Iterations of the body of the sample-copy loop of run: n remaining
iterations, each setting output[pos] to data[f] and incrementing both
counters. -/
def copyLoopAux : Nat → List Rat → List Rat → Nat → Nat → List Rat × Nat × Nat
  | 0, out, _, pos, f => (out, pos, f)
  | n + 1, out, data, pos, f =>
    copyLoopAux n (out.set pos (data.getD f 0)) data (pos + 1) (f + 1)

/-- The loop for (; pos < sample_count and f < lf; ++pos, ++f)
output[pos] = samp.data[f]: copy successive samples of data into the
output buffer, returning the buffer and the final pos and f.  The loop
runs min (sample_count - pos) (lf - f) times; the theorem
copyLoop_eq_loop below shows this definition satisfies the guard-form
recurrence of the C loop. -/
def copyLoop (out data : List Rat) (sample_count pos f lf : Nat) :
    List Rat × Nat × Nat :=
  copyLoopAux (min (sample_count - pos) (lf - f)) out data pos f

/-- Result of one run call: the plugin state after the call, the
contents of the output buffer, the load requests posted, the data
arrays passed to free during the call, and the stderr log. -/
structure RunResult where
  plug   : Sampler
  output : List Rat
  posts  : List String
  freed  : List (List Rat)
  log    : List String
  deriving DecidableEq, Repr

/-- The pointer-swap installation of run (sampler.c lines 339-347)
followed by the trailing zero fill (lines 350-352).  If not playing and
the ready flag is set, the active and pending buffers are exchanged,
the ready flag is cleared, and free(pending_samp.data) runs inside the
call (the freed array is recorded and the freed field becomes the empty
list, the modelling of a released pointer). -/
def swapAndTail (p : Sampler) (out : List Rat) (pos sample_count : Nat)
    (posts log : List String) : RunResult :=
  if !p.play && p.pending_sample_ready then
    { plug := { p with
                samp := p.pending_samp,
                pending_samp := { p.samp with data := [] },
                pending_sample_ready := false },
      output := zeroRange out pos sample_count,
      posts := posts,
      freed := [p.samp.data],
      log := log }
  else
    { plug := p,
      output := zeroRange out pos sample_count,
      posts := posts,
      freed := [],
      log := log }

/-- The part of run after the event loop (sampler.c lines 319-352):
render the sample if playing (leading zeros up to start_frame, then
samples of the active buffer from the cursor, stopping playback when
the cursor reaches the frame count), then install a pending sample
when idle and ready, and zero the rest of the output buffer. -/
def renderAndSwap (es : EvState) (sample_count : Nat)
    (output0 : List Rat) : RunResult :=
  let p1 := es.plug
  if p1.play then
    let lf := p1.samp.info.frames
    let o1 := zeroRange output0 0 es.start_frame
    let r := copyLoop o1 p1.samp.data sample_count es.start_frame p1.frame lf
    let f := r.2.2
    let p2 := { p1 with frame := f, play := if f = lf then false else p1.play }
    swapAndTail p2 r.1 r.2.1 sample_count es.posts es.log
  else
    swapAndTail p1 output0 0 sample_count es.posts es.log

/-- run (sampler.c lines 260-353): process the incoming events of the
block, then render, swap, and zero-fill.  output0 is the prior content
of the output port buffer. -/
def run (plugin : Sampler) (sample_count : Nat) (events : List Event)
    (output0 : List Rat) : RunResult :=
  renderAndSwap (processEvents plugin events) sample_count output0

/-- The components of the event-loop state other than the stderr log:
plugin state, start_frame, and posted load requests. -/
def evCore (es : EvState) : Sampler × Nat × List String :=
  (es.plug, es.start_frame, es.posts)

/-- Events that run skips after reporting them on stderr: a Set message
with no body, a Set message with no filename, an atom object of a type
other than message:Set, and an event of unknown type. -/
def skipped (ev : Event) : Bool :=
  match ev with
  | .midi _ _ => false
  | .objSet _ none => true
  | .objSet _ (some none) => true
  | .objSet _ (some (some _)) => false
  | .objOther _ _ => true
  | .other _ _ => true

/-- The SampleBuffer invariant of the spec: the sample data is either
empty (unloaded or failed) or exactly frame_count long. -/
def bufInv (b : SampleFile) : Prop :=
  b.data = [] ∨ b.data.length = b.info.frames

/-- The buffer invariant restricted to where the code maintains it: the
active buffer always satisfies it, and the pending buffer satisfies it
whenever the ready flag is set. -/
def stInv (s : Sampler) : Prop :=
  bufInv s.samp ∧ (s.pending_sample_ready = true → bufInv s.pending_samp)

/-- Well-formedness of the modelled filesystem, a guarantee of the
external decoder: a successfully opened sound file holds exactly
frames * channels interleaved samples. -/
def fsWellFormed (fs : String → SfOpen) : Prop :=
  ∀ p info content, fs p = .ok info content →
    content.length = info.frames * info.channels

/-- A load request is rejected by handle_load_sample when the file
cannot be opened, has zero frames, or is not monophonic. -/
def load_rejected (plugin : Sampler) (fs : String → SfOpen) : Prop :=
  match fs plugin.pending_samp.filepath with
  | .fail => True
  | .ok info _ => info.frames = 0 ∨ info.channels ≠ 1

/-! ### Concrete fixtures used by witnesses and counterexamples -/

/-- A 4-frame monophonic sample file, the end-to-end scenario of the spec. -/
def fileA : SampleFile :=
  { filepath := "monosample.wav",
    info := { frames := 4, channels := 1 },
    data := [0.1, 0.2, 0.3, 0.4] }

/-- A 1-frame monophonic sample file. -/
def fileB : SampleFile :=
  { filepath := "b.wav",
    info := { frames := 1, channels := 1 },
    data := [0.5] }

/-- A zeroed SampleFile, as after memset in instantiate. -/
def fileZero : SampleFile :=
  { filepath := "", info := { frames := 0, channels := 0 }, data := [] }

/-- An idle plugin state with fileA active and nothing pending. -/
def plugIdle : Sampler :=
  { samp := fileA, pending_samp := fileZero,
    pending_sample_ready := false, play := false, frame := 0 }

/-- A plugin state mid-playback with a decoded pending sample ready. -/
def plugMid : Sampler :=
  { samp := fileA, pending_samp := fileB,
    pending_sample_ready := true, play := true, frame := 2 }

/-- An idle plugin state with a decoded pending sample ready, i.e. a
state in which run will install the pending sample. -/
def plugSwap : Sampler :=
  { samp := fileA, pending_samp := fileB,
    pending_sample_ready := true, play := false, frame := 4 }

/-- An idle plugin state whose active buffer has zero frames. -/
def plugZero : Sampler :=
  { samp := fileZero, pending_samp := fileZero,
    pending_sample_ready := false, play := false, frame := 0 }

/-- A filesystem on which every open fails. -/
def fsFail : String → SfOpen := fun _ => .fail

/-- A filesystem on which every path opens as a 3-frame stereo file. -/
def fsStereo : String → SfOpen :=
  fun _ => .ok { frames := 3, channels := 2 } [1, 2, 3, 4, 5, 6]

/-- A filesystem serving the content of fileA on every path. -/
def fsMonoA : String → SfOpen :=
  fun _ => .ok { frames := 4, channels := 1 } [0.1, 0.2, 0.3, 0.4]

/-! ### Loop lemmas -/

/-- zeroRange satisfies the guard-form recurrence of the C loop. -/
theorem zeroRange_eq_loop (out : List Rat) (pos stop : Nat) :
    zeroRange out pos stop =
      if pos < stop then zeroRange (out.set pos 0) (pos + 1) stop else out := by
  unfold zeroRange
  split
  · next h =>
    have hn : stop - pos = (stop - (pos + 1)) + 1 := by omega
    rw [hn]
    rfl
  · next h =>
    have hn : stop - pos = 0 := by omega
    rw [hn]
    rfl

/-- copyLoop satisfies the guard-form recurrence of the C loop. -/
theorem copyLoop_eq_loop (out data : List Rat) (N pos f lf : Nat) :
    copyLoop out data N pos f lf =
      if pos < N ∧ f < lf then
        copyLoop (out.set pos (data.getD f 0)) data N (pos + 1) (f + 1) lf
      else (out, pos, f) := by
  unfold copyLoop
  split
  · next h =>
    have hn : min (N - pos) (lf - f) =
        (min (N - (pos + 1)) (lf - (f + 1))) + 1 := by omega
    rw [hn]
    rfl
  · next h =>
    have hn : min (N - pos) (lf - f) = 0 := by omega
    rw [hn]
    rfl

theorem zeroRangeAux_length (n : Nat) (out : List Rat) (pos : Nat) :
    (zeroRangeAux n out pos).length = out.length := by
  induction n generalizing out pos with
  | zero => rfl
  | succ n ih => rw [zeroRangeAux, ih, List.length_set]

theorem zeroRange_length (out : List Rat) (pos stop : Nat) :
    (zeroRange out pos stop).length = out.length :=
  zeroRangeAux_length _ _ _

theorem copyLoopAux_length (n : Nat) (out data : List Rat) (pos f : Nat) :
    (copyLoopAux n out data pos f).1.length = out.length := by
  induction n generalizing out pos f with
  | zero => rfl
  | succ n ih => rw [copyLoopAux, ih, List.length_set]

theorem copyLoop_length (out data : List Rat) (N pos f lf : Nat) :
    (copyLoop out data N pos f lf).1.length = out.length :=
  copyLoopAux_length _ _ _ _ _

theorem copyLoopAux_counters (n : Nat) (out data : List Rat) (pos f : Nat) :
    (copyLoopAux n out data pos f).2 = (pos + n, f + n) := by
  induction n generalizing out pos f with
  | zero => rfl
  | succ n ih =>
    rw [copyLoopAux, ih]
    simp [Prod.ext_iff]
    omega

/-- Setting a slot then taking one past it appends the value. -/
theorem take_succ_set (l : List Rat) (i : Nat) (a : Rat) (h : i < l.length) :
    (l.set i a).take (i + 1) = l.take i ++ [a] := by
  rw [List.set_eq_take_cons_drop a h, List.take_append_eq_append_take]
  simp [List.length_take, Nat.min_eq_left (Nat.le_of_lt h), Nat.le_of_lt h]

/-- Closed form of the zero-fill iterations: slots pos, ..., pos+n-1
become zero and the rest of the buffer is untouched. -/
theorem zeroRangeAux_closed (n : Nat) (out : List Rat) (pos : Nat)
    (h : pos + n ≤ out.length) :
    zeroRangeAux n out pos =
      out.take pos ++ List.replicate n 0 ++ out.drop (pos + n) := by
  induction n generalizing out pos with
  | zero => simp [zeroRangeAux]
  | succ n ih =>
    rw [zeroRangeAux, ih _ _ (by simp; omega)]
    rw [take_succ_set _ _ _ (by omega)]
    rw [List.drop_set_of_lt _ _ (by omega)]
    have hrep : List.replicate (n + 1) (0 : Rat) = 0 :: List.replicate n 0 := rfl
    rw [hrep]
    have harith : pos + 1 + n = pos + (n + 1) := by omega
    rw [harith]
    simp

/-- Closed form of zeroRange. -/
theorem zeroRange_closed (out : List Rat) (pos stop : Nat)
    (h1 : pos ≤ stop) (h2 : stop ≤ out.length) :
    zeroRange out pos stop =
      out.take pos ++ List.replicate (stop - pos) 0 ++ out.drop stop := by
  unfold zeroRange
  rw [zeroRangeAux_closed _ _ _ (by omega)]
  have : pos + (stop - pos) = stop := by omega
  rw [this]

/-- Closed form of the copy iterations: slots pos, ..., pos+n-1 receive
data[f], ..., data[f+n-1] and the rest of the buffer is untouched. -/
theorem copyLoopAux_closed (n : Nat) (out data : List Rat) (pos f : Nat)
    (h1 : pos + n ≤ out.length) (h2 : f + n ≤ data.length) :
    (copyLoopAux n out data pos f).1 =
      out.take pos ++ (data.drop f).take n ++ out.drop (pos + n) := by
  induction n generalizing out pos f with
  | zero => simp [copyLoopAux]
  | succ n ih =>
    rw [copyLoopAux, ih _ _ _ (by simp; omega) (by omega)]
    rw [take_succ_set _ _ _ (by omega)]
    rw [List.drop_set_of_lt _ _ (by omega)]
    have hf : f < data.length := by omega
    have hseg : (data.drop f).take (n + 1) =
        data.getD f 0 :: (data.drop (f + 1)).take n := by
      rw [List.getD_eq_getElem _ _ hf]
      rw [List.drop_eq_getElem_cons hf]
      rfl
    rw [hseg]
    have harith : pos + 1 + n = pos + (n + 1) := by omega
    rw [harith]
    simp

/-! ### swapAndTail projections -/

theorem swapAndTail_output (p : Sampler) (out : List Rat) (pos N : Nat)
    (posts log : List String) :
    (swapAndTail p out pos N posts log).output = zeroRange out pos N := by
  unfold swapAndTail
  split <;> rfl

theorem swapAndTail_play (p : Sampler) (out : List Rat) (pos N : Nat)
    (posts log : List String) :
    (swapAndTail p out pos N posts log).plug.play = p.play := by
  unfold swapAndTail
  split <;> rfl

theorem swapAndTail_frame (p : Sampler) (out : List Rat) (pos N : Nat)
    (posts log : List String) :
    (swapAndTail p out pos N posts log).plug.frame = p.frame := by
  unfold swapAndTail
  split <;> rfl

theorem swapAndTail_ready (p : Sampler) (out : List Rat) (pos N : Nat)
    (posts log : List String) :
    (swapAndTail p out pos N posts log).plug.pending_sample_ready =
      (p.pending_sample_ready && p.play) := by
  unfold swapAndTail
  split
  · next h =>
    simp at h
    simp [h]
  · next h =>
    simp at h
    rcases hp : p.play
    · simp [hp] at h
      simp [h]
    · simp

theorem swapAndTail_samp (p : Sampler) (out : List Rat) (pos N : Nat)
    (posts log : List String) :
    (swapAndTail p out pos N posts log).plug.samp =
      (if !p.play && p.pending_sample_ready then p.pending_samp else p.samp) := by
  unfold swapAndTail
  split
  · next h => simp [h]
  · next h => simp [h]

theorem swapAndTail_pending (p : Sampler) (out : List Rat) (pos N : Nat)
    (posts log : List String) :
    (swapAndTail p out pos N posts log).plug.pending_samp =
      (if !p.play && p.pending_sample_ready then { p.samp with data := [] }
       else p.pending_samp) := by
  unfold swapAndTail
  split
  · next h => simp [h]
  · next h => simp [h]

theorem swapAndTail_freed (p : Sampler) (out : List Rat) (pos N : Nat)
    (posts log : List String) :
    (swapAndTail p out pos N posts log).freed =
      (if !p.play && p.pending_sample_ready then [p.samp.data] else []) := by
  unfold swapAndTail
  split
  · next h => simp [h]
  · next h => simp [h]

theorem swapAndTail_posts (p : Sampler) (out : List Rat) (pos N : Nat)
    (posts log : List String) :
    (swapAndTail p out pos N posts log).posts = posts := by
  unfold swapAndTail
  split <;> rfl

theorem swapAndTail_log (p : Sampler) (out : List Rat) (pos N : Nat)
    (posts log : List String) :
    (swapAndTail p out pos N posts log).log = log := by
  unfold swapAndTail
  split <;> rfl

/-! ### Event-loop frame lemmas -/

/-- A single event never touches the active buffer, the ready flag, or
the metadata and data of the pending buffer (only its filepath). -/
theorem processEvent_frame (es : EvState) (ev : Event) :
    (processEvent es ev).plug.samp = es.plug.samp ∧
      (processEvent es ev).plug.pending_sample_ready =
        es.plug.pending_sample_ready ∧
      (processEvent es ev).plug.pending_samp.info = es.plug.pending_samp.info ∧
      (processEvent es ev).plug.pending_samp.data = es.plug.pending_samp.data := by
  rcases ev with ⟨t, status⟩ | ⟨t, _ | _ | str⟩ | ⟨t, objId⟩ | ⟨t, etype⟩ <;>
    simp [processEvent] <;> split <;> simp

/-- The whole event loop never touches the active buffer, the ready
flag, or the metadata and data of the pending buffer. -/
theorem foldl_processEvent_frame (events : List Event) (es : EvState) :
    (events.foldl processEvent es).plug.samp = es.plug.samp ∧
      (events.foldl processEvent es).plug.pending_sample_ready =
        es.plug.pending_sample_ready ∧
      (events.foldl processEvent es).plug.pending_samp.info =
        es.plug.pending_samp.info ∧
      (events.foldl processEvent es).plug.pending_samp.data =
        es.plug.pending_samp.data := by
  induction events generalizing es with
  | nil => simp
  | cons ev evs ih =>
    simp only [List.foldl_cons]
    obtain ⟨h1, h2, h3, h4⟩ := ih (processEvent es ev)
    obtain ⟨g1, g2, g3, g4⟩ := processEvent_frame es ev
    exact ⟨h1.trans g1, h2.trans g2, h3.trans g3, h4.trans g4⟩

theorem processEvents_samp (plugin : Sampler) (events : List Event) :
    (processEvents plugin events).plug.samp = plugin.samp :=
  (foldl_processEvent_frame events _).1

theorem processEvents_ready (plugin : Sampler) (events : List Event) :
    (processEvents plugin events).plug.pending_sample_ready =
      plugin.pending_sample_ready :=
  (foldl_processEvent_frame events _).2.1

/-- The event loop commutes with overwriting the ready flag: no event
reads or writes it. -/
theorem processEvent_setReady (es : EvState) (b : Bool) (ev : Event) :
    processEvent { es with plug := { es.plug with pending_sample_ready := b } } ev =
      { processEvent es ev with
        plug := { (processEvent es ev).plug with pending_sample_ready := b } } := by
  rcases ev with ⟨t, status⟩ | ⟨t, _ | _ | str⟩ | ⟨t, objId⟩ | ⟨t, etype⟩ <;>
    simp [processEvent]
  split <;> simp

theorem foldl_processEvent_setReady (events : List Event) (es : EvState)
    (b : Bool) :
    events.foldl processEvent
        { es with plug := { es.plug with pending_sample_ready := b } } =
      { events.foldl processEvent es with
        plug := { (events.foldl processEvent es).plug with
                  pending_sample_ready := b } } := by
  induction events generalizing es with
  | nil => rfl
  | cons ev evs ih =>
    simp only [List.foldl_cons]
    rw [processEvent_setReady, ih]

/-- Events with equal plugin state, start_frame, and posts are
processed to equal plugin state, start_frame, and posts: the stderr
log never feeds back into the computation. -/
theorem processEvent_core_congr (es₁ es₂ : EvState) (ev : Event)
    (h : evCore es₁ = evCore es₂) :
    evCore (processEvent es₁ ev) = evCore (processEvent es₂ ev) := by
  obtain ⟨p₁, s₁, q₁, l₁⟩ := es₁
  obtain ⟨p₂, s₂, q₂, l₂⟩ := es₂
  simp [evCore] at h
  obtain ⟨hp, hs, hq⟩ := h
  subst hp hs hq
  rcases ev with ⟨t, status⟩ | ⟨t, _ | _ | str⟩ | ⟨t, objId⟩ | ⟨t, etype⟩ <;>
    simp [processEvent, evCore]
  split <;> simp

theorem foldl_processEvent_core_congr (events : List Event) (es₁ es₂ : EvState)
    (h : evCore es₁ = evCore es₂) :
    evCore (events.foldl processEvent es₁) =
      evCore (events.foldl processEvent es₂) := by
  induction events generalizing es₁ es₂ with
  | nil => exact h
  | cons ev evs ih =>
    simp only [List.foldl_cons]
    exact ih _ _ (processEvent_core_congr _ _ _ h)

/-- A skipped event changes nothing but the stderr log, to which it
appends exactly one report. -/
theorem processEvent_skipped (es : EvState) (ev : Event)
    (h : skipped ev = true) :
    evCore (processEvent es ev) = evCore es ∧
      ∃ m, (processEvent es ev).log = es.log ++ [m] := by
  rcases ev with ⟨t, status⟩ | ⟨t, _ | _ | str⟩ | ⟨t, objId⟩ | ⟨t, etype⟩ <;>
    simp [skipped] at h <;> simp [processEvent, evCore]

/-! ### run projections -/

theorem run_posts (plugin : Sampler) (N : Nat) (events : List Event)
    (output0 : List Rat) :
    (run plugin N events output0).posts = (processEvents plugin events).posts := by
  unfold run renderAndSwap
  dsimp only
  split <;> rw [swapAndTail_posts]

theorem run_log (plugin : Sampler) (N : Nat) (events : List Event)
    (output0 : List Rat) :
    (run plugin N events output0).log = (processEvents plugin events).log := by
  unfold run renderAndSwap
  dsimp only
  split <;> rw [swapAndTail_log]

/-- The ready flag after run: it survives exactly when playback is
still in progress at the end of the call (otherwise a set flag is
consumed by the swap), and run never raises it. -/
theorem run_ready (plugin : Sampler) (N : Nat) (events : List Event)
    (output0 : List Rat) :
    (run plugin N events output0).plug.pending_sample_ready =
      (plugin.pending_sample_ready && (run plugin N events output0).plug.play) := by
  unfold run renderAndSwap
  dsimp only
  split <;>
    rw [swapAndTail_ready, swapAndTail_play] <;>
    simp [processEvents_ready]

/-- The active buffer after run: the pending buffer (with the path any
Set event of the block wrote) exactly when the entry ready flag is set
and playback finishes idle, the entry active buffer otherwise. -/
theorem run_samp (plugin : Sampler) (N : Nat) (events : List Event)
    (output0 : List Rat) :
    (run plugin N events output0).plug.samp =
      (if plugin.pending_sample_ready && !(run plugin N events output0).plug.play
       then (processEvents plugin events).plug.pending_samp
       else plugin.samp) := by
  unfold run renderAndSwap
  dsimp only
  split <;>
    rw [swapAndTail_samp, swapAndTail_play] <;>
    rw [Bool.and_comm] <;>
    simp [processEvents_ready, processEvents_samp]

/-- The rendered output and the cursor do not depend on the ready flag:
the swap of a ready pending buffer never alters what the current call
renders. -/
theorem run_ready_irrel (plugin : Sampler) (N : Nat) (events : List Event)
    (output0 : List Rat) :
    (run { plugin with pending_sample_ready := false } N events output0).output =
        (run plugin N events output0).output ∧
      (run { plugin with pending_sample_ready := false } N events output0).plug.frame =
        (run plugin N events output0).plug.frame := by
  have hpe : processEvents { plugin with pending_sample_ready := false } events =
      { processEvents plugin events with
        plug := { (processEvents plugin events).plug with
                  pending_sample_ready := false } } :=
    foldl_processEvent_setReady events
      { plug := plugin, start_frame := 0, posts := [], log := [] } false
  unfold run renderAndSwap
  rw [hpe]
  dsimp only
  split <;> refine ⟨?_, ?_⟩
  · rw [swapAndTail_output, swapAndTail_output]
  · rw [swapAndTail_frame, swapAndTail_frame]
  · rw [swapAndTail_output, swapAndTail_output]
  · rw [swapAndTail_frame, swapAndTail_frame]

/-- The ready flag after handle_load_sample equals the success of the
load, whatever its prior value: the flag is cleared on entry and raised
only on full success. -/
theorem handle_load_sample_ready (plugin : Sampler) (fs : String → SfOpen)
    (allocOk : Bool) :
    (handle_load_sample plugin fs allocOk).pending_sample_ready =
      load_succeeds plugin fs allocOk := by
  unfold handle_load_sample load_succeeds
  dsimp only
  cases hfs : fs plugin.pending_samp.filepath with
  | fail => simp
  | ok info content =>
    by_cases hbad : info.frames = 0 ∨ info.channels ≠ 1
    · simp [hbad]
    · by_cases ha : allocOk <;> simp [hbad, ha]

/-- handle_load_sample never touches the active buffer. -/
theorem handle_load_sample_samp (plugin : Sampler) (fs : String → SfOpen)
    (allocOk : Bool) :
    (handle_load_sample plugin fs allocOk).samp = plugin.samp := by
  unfold handle_load_sample
  dsimp only
  cases hfs : fs plugin.pending_samp.filepath with
  | fail => rfl
  | ok info content =>
    by_cases hbad : info.frames = 0 ∨ info.channels ≠ 1
    · simp [hbad]
    · by_cases ha : allocOk <;> simp [hbad, ha]

theorem copyLoop_posn (out data : List Rat) (N pos f lf : Nat) :
    (copyLoop out data N pos f lf).2.1 = pos + min (N - pos) (lf - f) := by
  unfold copyLoop
  rw [copyLoopAux_counters]

theorem copyLoop_frame (out data : List Rat) (N pos f lf : Nat) :
    (copyLoop out data N pos f lf).2.2 = f + min (N - pos) (lf - f) := by
  unfold copyLoop
  rw [copyLoopAux_counters]

/-- One event either leaves the playback state and cursor unchanged, or
(a note-on) sets them to Playing at cursor 0. -/
theorem processEvent_playback (es : EvState) (ev : Event) :
    ((processEvent es ev).plug.play = es.plug.play ∧
        (processEvent es ev).plug.frame = es.plug.frame) ∨
      ((processEvent es ev).plug.play = true ∧
        (processEvent es ev).plug.frame = 0) := by
  rcases ev with ⟨t, status⟩ | ⟨t, _ | _ | str⟩ | ⟨t, objId⟩ | ⟨t, etype⟩
  · by_cases hs : status &&& 0xF0 = 0x90
    · exact Or.inr (by simp [processEvent, hs])
    · exact Or.inl (by simp [processEvent, hs])
  · exact Or.inl (by simp [processEvent])
  · exact Or.inl (by simp [processEvent])
  · exact Or.inl (by simp [processEvent])
  · exact Or.inl (by simp [processEvent])
  · exact Or.inl (by simp [processEvent])

theorem foldl_processEvent_playback (events : List Event) (es : EvState) :
    ((events.foldl processEvent es).plug.play = es.plug.play ∧
        (events.foldl processEvent es).plug.frame = es.plug.frame) ∨
      ((events.foldl processEvent es).plug.play = true ∧
        (events.foldl processEvent es).plug.frame = 0) := by
  induction events generalizing es with
  | nil => exact Or.inl ⟨rfl, rfl⟩
  | cons ev evs ih =>
    simp only [List.foldl_cons]
    rcases ih (processEvent es ev) with ⟨h1, h2⟩ | ⟨h1, h2⟩
    · rcases processEvent_playback es ev with ⟨g1, g2⟩ | ⟨g1, g2⟩
      · exact Or.inl ⟨h1.trans g1, h2.trans g2⟩
      · exact Or.inr ⟨h1.trans g1, h2.trans g2⟩
    · exact Or.inr ⟨h1, h2⟩

/-- The event loop either leaves the playback state and cursor of the
plugin unchanged, or a note-on set them to Playing at cursor 0. -/
theorem processEvents_playback (plugin : Sampler) (events : List Event) :
    (((processEvents plugin events).plug.play = plugin.play ∧
        (processEvents plugin events).plug.frame = plugin.frame) ∨
      ((processEvents plugin events).plug.play = true ∧
        (processEvents plugin events).plug.frame = 0)) :=
  foldl_processEvent_playback events _

/-! ### Claim theorems -/

/-- C8: for every prior event-loop state, a note-on MIDI event (status
byte with high nibble 0x9) sets the playback state to Playing with
cursor 0 and records its intra-block offset as start_frame, overriding
any in-progress cursor; and a repeated identical note-on changes
nothing further (idempotent restart). -/
theorem noteOn_restarts (es : EvState) (t status : Nat)
    (h : status &&& 0xF0 = 0x90) :
    processEvent es (.midi t status) =
        { es with
          start_frame := t,
          plug := { es.plug with frame := 0, play := true } } ∧
      processEvent (processEvent es (.midi t status)) (.midi t status) =
        processEvent es (.midi t status) := by
  constructor
  · simp [processEvent, h]
  · simp [processEvent, h]

/-- Witness for C8 at a state already playing with cursor 2. -/
theorem noteOn_restarts_witness :
    ((0x92 : Nat) &&& 0xF0 = 0x90) ∧
      (processEvent { plug := plugMid, start_frame := 0, posts := [], log := [] }
            (.midi 3 0x92) =
          { plug := { plugMid with frame := 0, play := true },
            start_frame := 3, posts := [], log := [] } ∧
        processEvent
            (processEvent
              { plug := plugMid, start_frame := 0, posts := [], log := [] }
              (.midi 3 0x92))
            (.midi 3 0x92) =
          processEvent { plug := plugMid, start_frame := 0, posts := [], log := [] }
            (.midi 3 0x92)) :=
  ⟨by decide,
    noteOn_restarts { plug := plugMid, start_frame := 0, posts := [], log := [] }
      3 0x92 (by decide)⟩

/-- C10: beginning a load clears the ready flag, so a previously
decoded pending result becomes ineligible for installation whatever the
prior flag value, and the flag is raised again exactly when the new
load fully succeeds. -/
theorem load_clears_then_sets_ready (plugin : Sampler) (fs : String → SfOpen)
    (allocOk : Bool) :
    (handle_load_sample plugin fs allocOk).pending_sample_ready =
      load_succeeds plugin fs allocOk :=
  handle_load_sample_ready plugin fs allocOk

/-- C4: when the pending file cannot be opened, has zero frames, or is
not monophonic (or the data allocation fails), the load fails: the
ready flag is not raised and the active buffer is left completely
unchanged. -/
theorem load_rejected_leaves_active (plugin : Sampler) (fs : String → SfOpen)
    (allocOk : Bool) (h : load_rejected plugin fs ∨ allocOk = false) :
    (handle_load_sample plugin fs allocOk).pending_sample_ready = false ∧
      (handle_load_sample plugin fs allocOk).samp = plugin.samp := by
  refine ⟨?_, handle_load_sample_samp plugin fs allocOk⟩
  rw [handle_load_sample_ready]
  unfold load_succeeds
  rcases h with h | h
  · unfold load_rejected at h
    revert h
    cases hfs : fs plugin.pending_samp.filepath with
    | fail => intro h; rfl
    | ok info content =>
      intro h
      dsimp only at h ⊢
      simp [h]
  · cases hfs : fs plugin.pending_samp.filepath with
    | fail => rfl
    | ok info content => simp [h]

/-- Witness for C4: loading a stereo file over the idle state fails and
leaves the active buffer untouched. -/
theorem load_rejected_leaves_active_witness :
    (load_rejected plugIdle fsStereo ∨ true = false) ∧
      ((handle_load_sample plugIdle fsStereo true).pending_sample_ready = false ∧
        (handle_load_sample plugIdle fsStereo true).samp = plugIdle.samp) :=
  ⟨Or.inl (Or.inr (by decide)),
    load_rejected_leaves_active plugIdle fsStereo true
      (Or.inl (Or.inr (by decide)))⟩

/-- C5 counterexample: the claim says no Loader-side operation ever
changes the ready flag from set to cleared, but handle_load_sample on a
state with the flag set (here with a failing open) ends with the flag
cleared. -/
theorem loader_clears_ready_cex :
    plugMid.pending_sample_ready = true ∧
      (handle_load_sample plugMid fsFail true).pending_sample_ready = false := by
  decide

/-- C5 as amended: the ready flag is raised only by a fully successful
Loader-side load (and the Loader also clears it at the start of every
load), while run, the Renderer side, never raises it: the flag after
run is the entry flag masked by playback still being in progress. -/
theorem ready_writer_discipline (plugin : Sampler) (fs : String → SfOpen)
    (allocOk : Bool) (N : Nat) (events : List Event) (output0 : List Rat) :
    (handle_load_sample plugin fs allocOk).pending_sample_ready =
        load_succeeds plugin fs allocOk ∧
      (run plugin N events output0).plug.pending_sample_ready =
        (plugin.pending_sample_ready && (run plugin N events output0).plug.play) :=
  ⟨handle_load_sample_ready plugin fs allocOk, run_ready plugin N events output0⟩

/-- C2: run swaps the active and pending buffers exactly when playback
is idle after rendering and the ready flag is set (the swap consuming
the flag, which run never raises), and the swap never alters what the
current call renders: the output is what it would be with the flag
clear. -/
theorem swap_only_when_idle_and_ready (plugin : Sampler) (N : Nat)
    (events : List Event) (output0 : List Rat) :
    ((run plugin N events output0).plug.pending_sample_ready =
        (plugin.pending_sample_ready && (run plugin N events output0).plug.play)) ∧
      ((run plugin N events output0).plug.samp =
        (if plugin.pending_sample_ready && !(run plugin N events output0).plug.play
         then (processEvents plugin events).plug.pending_samp
         else plugin.samp)) ∧
      ((run plugin N events output0).output =
        (run { plugin with pending_sample_ready := false } N events output0).output) :=
  ⟨run_ready plugin N events output0,
    run_samp plugin N events output0,
    (run_ready_irrel plugin N events output0).1.symm⟩

/-- C3: contrary to the claim (and to the FIXME comment in the source),
run does release memory inside the real-time call: on an idle state
with a ready pending sample, the displaced active data array is passed
to free during the call itself. -/
theorem run_frees_inside_call :
    (run plugSwap 2 [] [7, 7]).freed = [[0.1, 0.2, 0.3, 0.4]] := rfl

/-- C9: from any state whose cursor is within the active frame count,
after run completes a still-Playing state has its cursor strictly below
the frame count of the (post-call) active buffer, so the next call
never reads past the end; and when playback was in progress after the
event phase, the call ends Idle exactly when the cursor reached the
frame count (including a note-on into a zero-frame buffer). -/
theorem run_cursor_in_bounds (plugin : Sampler) (N : Nat) (events : List Event)
    (output0 : List Rat)
    (h : plugin.play = true → plugin.frame ≤ plugin.samp.info.frames) :
    ((run plugin N events output0).plug.play = true →
        (run plugin N events output0).plug.frame <
          (run plugin N events output0).plug.samp.info.frames) ∧
      ((processEvents plugin events).plug.play = true →
        ((run plugin N events output0).plug.play = false ↔
          (run plugin N events output0).plug.frame =
            plugin.samp.info.frames)) := by
  have hsamp : (processEvents plugin events).plug.samp = plugin.samp :=
    processEvents_samp plugin events
  have hfr : (processEvents plugin events).plug.play = true →
      (processEvents plugin events).plug.frame ≤ plugin.samp.info.frames := by
    intro hp
    rcases processEvents_playback plugin events with ⟨h1, h2⟩ | ⟨h1, h2⟩
    · rw [h2]
      exact h (h1 ▸ hp)
    · rw [h2]
      exact Nat.zero_le _
  unfold run renderAndSwap
  dsimp only
  split
  · next hplay =>
    simp only [swapAndTail_play, swapAndTail_frame, swapAndTail_samp]
    rw [copyLoop_frame, hsamp]
    have hle := hfr hplay
    by_cases hf :
        (processEvents plugin events).plug.frame +
            min (N - (processEvents plugin events).start_frame)
              (plugin.samp.info.frames - (processEvents plugin events).plug.frame) =
          plugin.samp.info.frames
    · constructor
      · intro hcontra
        simp [hf] at hcontra
      · intro _
        simp [hf]
    · constructor
      · intro _
        simp [hf, hplay]
        omega
      · intro _
        simp [hf, hplay]
  · next hplay =>
    simp only [swapAndTail_play, swapAndTail_frame]
    constructor
    · intro hcontra
      exact absurd hcontra hplay
    · intro hp
      exact absurd hp hplay

/-- Witness for C9: a note-on at offset 0 into a zero-frame active
buffer ends the call Idle with the cursor at the frame count. -/
theorem run_cursor_in_bounds_witness :
    (plugZero.play = true → plugZero.frame ≤ plugZero.samp.info.frames) ∧
      (((run plugZero 2 [.midi 0 0x90] [5, 5]).plug.play = true →
          (run plugZero 2 [.midi 0 0x90] [5, 5]).plug.frame <
            (run plugZero 2 [.midi 0 0x90] [5, 5]).plug.samp.info.frames) ∧
        ((processEvents plugZero [.midi 0 0x90]).plug.play = true →
          ((run plugZero 2 [.midi 0 0x90] [5, 5]).plug.play = false ↔
            (run plugZero 2 [.midi 0 0x90] [5, 5]).plug.frame =
              plugZero.samp.info.frames))) :=
  ⟨by decide, run_cursor_in_bounds plugZero 2 [.midi 0 0x90] [5, 5] (by decide)⟩

/-- The plugin state a swapAndTail call produces does not depend on the
log, output buffer, or block-length arguments. -/
theorem swapAndTail_plug (p : Sampler) (out : List Rat) (pos N : Nat)
    (posts log : List String) :
    (swapAndTail p out pos N posts log).plug =
      (if !p.play && p.pending_sample_ready then
        { p with
          samp := p.pending_samp,
          pending_samp := { p.samp with data := [] },
          pending_sample_ready := false }
       else p) := by
  unfold swapAndTail
  split
  · next h => simp [h]
  · next h => simp [h]

/-- renderAndSwap depends only on the plugin state, start_frame, and
posts components of the event-loop state: event-loop states that agree
on those produce the same result state, output, and posts. -/
theorem renderAndSwap_core_congr (es₁ es₂ : EvState) (N : Nat)
    (output0 : List Rat) (h : evCore es₁ = evCore es₂) :
    (renderAndSwap es₁ N output0).plug = (renderAndSwap es₂ N output0).plug ∧
      (renderAndSwap es₁ N output0).output = (renderAndSwap es₂ N output0).output ∧
      (renderAndSwap es₁ N output0).posts = (renderAndSwap es₂ N output0).posts := by
  obtain ⟨p₁, s₁, q₁, l₁⟩ := es₁
  obtain ⟨p₂, s₂, q₂, l₂⟩ := es₂
  simp [evCore] at h
  obtain ⟨hp, hs, hq⟩ := h
  subst hp hs hq
  unfold renderAndSwap
  dsimp only
  refine ⟨?_, ?_, ?_⟩ <;>
    split <;>
    simp only [swapAndTail_plug, swapAndTail_output, swapAndTail_posts]

/-- Removing an event that preserves the event-loop core from the
middle of a block leaves the result state, output, and posts of run
unchanged. -/
theorem run_drop_core_preserving (plugin : Sampler) (N : Nat)
    (evs₁ evs₂ : List Event) (bad : Event) (output0 : List Rat)
    (hcore : ∀ es, evCore (processEvent es bad) = evCore es) :
    (run plugin N (evs₁ ++ bad :: evs₂) output0).plug =
        (run plugin N (evs₁ ++ evs₂) output0).plug ∧
      (run plugin N (evs₁ ++ bad :: evs₂) output0).output =
        (run plugin N (evs₁ ++ evs₂) output0).output ∧
      (run plugin N (evs₁ ++ bad :: evs₂) output0).posts =
        (run plugin N (evs₁ ++ evs₂) output0).posts := by
  have h1 : evCore (processEvents plugin (evs₁ ++ bad :: evs₂)) =
      evCore (processEvents plugin (evs₁ ++ evs₂)) := by
    unfold processEvents
    rw [List.foldl_append, List.foldl_append]
    simp only [List.foldl_cons]
    exact foldl_processEvent_core_congr evs₂ _ _ (hcore _)
  unfold run
  exact renderAndSwap_core_congr _ _ N output0 h1

/-- C7: a malformed Set message (missing body or filename) or an event
of unrecognized type is skipped after appending exactly one report to
the log, and removing it from anywhere in the block leaves the plugin
state, rendered output, and posted load requests of run unchanged, so
every other event of the block is still processed normally. -/
theorem malformed_event_contained (plugin : Sampler) (N : Nat)
    (evs₁ evs₂ : List Event) (bad : Event) (output0 : List Rat)
    (h : skipped bad = true) :
    (∃ m, ∀ es, processEvent es bad = { es with log := es.log ++ [m] }) ∧
      (run plugin N (evs₁ ++ bad :: evs₂) output0).plug =
        (run plugin N (evs₁ ++ evs₂) output0).plug ∧
      (run plugin N (evs₁ ++ bad :: evs₂) output0).output =
        (run plugin N (evs₁ ++ evs₂) output0).output ∧
      (run plugin N (evs₁ ++ bad :: evs₂) output0).posts =
        (run plugin N (evs₁ ++ evs₂) output0).posts := by
  have hstep : ∃ m, ∀ es, processEvent es bad = { es with log := es.log ++ [m] } := by
    rcases bad with ⟨t, status⟩ | ⟨t, _ | _ | str⟩ | ⟨t, objId⟩ | ⟨t, etype⟩ <;>
      simp [skipped] at h <;>
      exact ⟨_, fun es => rfl⟩
  have hcore : ∀ es, evCore (processEvent es bad) = evCore es := by
    obtain ⟨m, hm⟩ := hstep
    intro es
    rw [hm es]
    rfl
  exact ⟨hstep,
    run_drop_core_preserving plugin N evs₁ evs₂ bad output0 hcore⟩

/-- Witness for C7: an unknown-type event between two note-ons is
reported and skipped without affecting the rest of the block. -/
theorem malformed_event_contained_witness :
    skipped (.other 1 77) = true ∧
      ((∃ m, ∀ es, processEvent es (.other 1 77) = { es with log := es.log ++ [m] }) ∧
        (run plugIdle 2 ([.midi 0 0x90] ++ .other 1 77 :: [.midi 1 0x91]) [5, 5]).plug =
          (run plugIdle 2 ([.midi 0 0x90] ++ [.midi 1 0x91]) [5, 5]).plug ∧
        (run plugIdle 2 ([.midi 0 0x90] ++ .other 1 77 :: [.midi 1 0x91]) [5, 5]).output =
          (run plugIdle 2 ([.midi 0 0x90] ++ [.midi 1 0x91]) [5, 5]).output ∧
        (run plugIdle 2 ([.midi 0 0x90] ++ .other 1 77 :: [.midi 1 0x91]) [5, 5]).posts =
          (run plugIdle 2 ([.midi 0 0x90] ++ [.midi 1 0x91]) [5, 5]).posts) :=
  ⟨by decide,
    malformed_event_contained plugIdle 2 [.midi 0 0x90] [.midi 1 0x91]
      (.other 1 77) [5, 5] (by decide)⟩

theorem processEvents_pending_info (plugin : Sampler) (events : List Event) :
    (processEvents plugin events).plug.pending_samp.info =
      plugin.pending_samp.info :=
  (foldl_processEvent_frame events _).2.2.1

theorem processEvents_pending_data (plugin : Sampler) (events : List Event) :
    (processEvents plugin events).plug.pending_samp.data =
      plugin.pending_samp.data :=
  (foldl_processEvent_frame events _).2.2.2

/-- The SampleBuffer invariant only looks at the sample data and the
frame count. -/
theorem bufInv_congr (b₁ b₂ : SampleFile) (hd : b₁.data = b₂.data)
    (hi : b₁.info.frames = b₂.info.frames) : bufInv b₁ ↔ bufInv b₂ := by
  unfold bufInv
  rw [hd, hi]

/-- The pending buffer after run: emptied from the displaced active
buffer when the swap fires, otherwise the entry pending buffer (with
the path any Set event wrote). -/
theorem run_pending (plugin : Sampler) (N : Nat) (events : List Event)
    (output0 : List Rat) :
    (run plugin N events output0).plug.pending_samp =
      (if plugin.pending_sample_ready && !(run plugin N events output0).plug.play
       then { plugin.samp with data := [] }
       else (processEvents plugin events).plug.pending_samp) := by
  unfold run renderAndSwap
  dsimp only
  split <;>
    rw [swapAndTail_pending, swapAndTail_play] <;>
    rw [Bool.and_comm] <;>
    simp [processEvents_ready, processEvents_samp]

/-- After a successful load the pending buffer satisfies the
SampleBuffer invariant: its data is exactly frames long. -/
theorem handle_load_sample_pending_inv (plugin : Sampler) (fs : String → SfOpen)
    (allocOk : Bool) (hfs : fsWellFormed fs)
    (hsucc : load_succeeds plugin fs allocOk = true) :
    bufInv (handle_load_sample plugin fs allocOk).pending_samp := by
  unfold load_succeeds at hsucc
  unfold handle_load_sample
  dsimp only
  revert hsucc
  cases hfs2 : fs plugin.pending_samp.filepath with
  | fail => intro hsucc; cases hsucc
  | ok info content =>
    intro hsucc
    simp only [Bool.and_eq_true, Bool.not_eq_eq_eq_not, Bool.not_true,
      decide_eq_false_iff_not] at hsucc
    obtain ⟨hbad, ha⟩ := hsucc
    have hch : info.channels = 1 := by
      by_contra hc
      exact hbad (Or.inr hc)
    have hnz : info.frames ≠ 0 := fun hz => hbad (Or.inl hz)
    dsimp only
    rw [if_neg hbad, if_pos ha]
    right
    dsimp only
    have hlen := hfs _ _ _ hfs2
    rw [hch, Nat.mul_one] at hlen
    simp [List.length_take, hlen]

/-- C6 counterexample: from a state in which both buffers satisfy the
SampleBuffer invariant, a failed load of a 3-frame stereo file leaves
the pending buffer with its prior 1-frame data but a frame count of 3,
violating the invariant. -/
theorem bufInv_violated_cex :
    bufInv plugMid.samp ∧ bufInv plugMid.pending_samp ∧
      ¬ bufInv (handle_load_sample plugMid fsStereo true).pending_samp := by
  refine ⟨Or.inr rfl, Or.inr rfl, ?_⟩
  intro hinv
  have hdata : (handle_load_sample plugMid fsStereo true).pending_samp.data =
      [0.5] := rfl
  have hinfo :
      (handle_load_sample plugMid fsStereo true).pending_samp.info.frames =
        3 := rfl
  rw [bufInv, hdata, hinfo] at hinv
  rcases hinv with h | h
  · simp at h
  · simp at h

/-- C6 as amended: the SampleBuffer invariant holds unconditionally for
the active buffer and, for the pending buffer, whenever the ready flag
is set; both the loader and run preserve this (a failed load may leave
the not-ready pending buffer with stale data under a new frame count,
as the counterexample shows). -/
theorem stInv_preserved (s : Sampler) (fs : String → SfOpen) (allocOk : Bool)
    (N : Nat) (events : List Event) (output0 : List Rat)
    (hfs : fsWellFormed fs) (hs : stInv s) :
    stInv (handle_load_sample s fs allocOk) ∧
      stInv (run s N events output0).plug := by
  constructor
  · constructor
    · rw [handle_load_sample_samp]
      exact hs.1
    · intro hready
      rw [handle_load_sample_ready] at hready
      exact handle_load_sample_pending_inv s fs allocOk hfs hready
  · have hpinv : bufInv (processEvents s events).plug.pending_samp ↔
        bufInv s.pending_samp :=
      bufInv_congr _ _ (processEvents_pending_data s events)
        (by rw [processEvents_pending_info])
    constructor
    · rw [run_samp]
      split
      · next hc =>
        rw [Bool.and_eq_true] at hc
        exact hpinv.mpr (hs.2 hc.1)
      · exact hs.1
    · intro hready
      rw [run_ready, Bool.and_eq_true] at hready
      rw [run_pending, hready.2]
      simp only [Bool.not_true, Bool.and_false, Bool.false_eq_true, if_neg
        (by simp : ¬((s.pending_sample_ready && false) = true))]
      exact hpinv.mpr (hs.2 hready.1)

/-- Witness for C6: the invariant is preserved through a successful
load over the ready idle state and through a run call that installs the
pending sample. -/
theorem stInv_preserved_witness :
    fsWellFormed fsMonoA ∧ stInv plugSwap ∧
      (stInv (handle_load_sample plugSwap fsMonoA true) ∧
        stInv (run plugSwap 2 [] [5, 5]).plug) :=
  ⟨fun p info content h => by
      injection h with h1 h2
      subst h1
      subst h2
      rfl,
    ⟨Or.inr rfl, fun _ => Or.inr rfl⟩,
    stInv_preserved plugSwap fsMonoA true 2 [] [5, 5]
      (fun p info content h => by
        injection h with h1 h2
        subst h1
        subst h2
        rfl)
      ⟨Or.inr rfl, fun _ => Or.inr rfl⟩⟩

/-- Closed form of copyLoop when all reads and writes are in bounds. -/
theorem copyLoop_closed (out data : List Rat) (N pos f lf : Nat)
    (h1 : pos + min (N - pos) (lf - f) ≤ out.length)
    (h2 : f + min (N - pos) (lf - f) ≤ data.length) :
    (copyLoop out data N pos f lf).1 =
      out.take pos ++ (data.drop f).take (min (N - pos) (lf - f)) ++
        out.drop (pos + min (N - pos) (lf - f)) := by
  unfold copyLoop
  exact copyLoopAux_closed _ _ _ _ _ h1 h2

/-- Closed form of the whole rendering phase of run for a block with a
note-on at offset k: the output buffer holds k zeros, then up to N - k
samples of the active data from frame 0, then zeros. -/
theorem render_block_closed (output0 data : List Rat) (N k lf : Nat)
    (hk : k ≤ N) (hout : output0.length = N) (hlen : data.length = lf) :
    zeroRange
        (copyLoop (zeroRange output0 0 k) data N k 0 lf).1
        (copyLoop (zeroRange output0 0 k) data N k 0 lf).2.1 N =
      List.replicate k 0 ++ data.take (N - k) ++
        List.replicate (N - k - min (N - k) data.length) 0 := by
  subst hlen
  have ho1 : zeroRange output0 0 k =
      List.replicate k 0 ++ output0.drop k := by
    rw [zeroRange_closed _ _ _ (Nat.zero_le _) (by omega)]
    simp
  have ho1len : (zeroRange output0 0 k).length = N := by
    rw [zeroRange_length, hout]
  have hposn : (copyLoop (zeroRange output0 0 k) data N k 0 data.length).2.1 =
      k + min (N - k) data.length := by
    rw [copyLoop_posn]
    simp
  have hr1 : (copyLoop (zeroRange output0 0 k) data N k 0 data.length).1 =
      List.replicate k 0 ++ data.take (min (N - k) data.length) ++
        output0.drop (k + min (N - k) data.length) := by
    rw [copyLoop_closed _ _ _ _ _ _ (by rw [ho1len]; omega) (by omega)]
    rw [ho1]
    simp only [Nat.sub_zero, List.drop_zero]
    have hA : (List.replicate k (0 : Rat) ++ output0.drop k).take k =
        List.replicate k 0 :=
      List.take_left' (by simp)
    have hC : (List.replicate k (0 : Rat) ++ output0.drop k).drop
        (k + min (N - k) data.length) =
        output0.drop (k + min (N - k) data.length) := by
      rw [List.drop_append_eq_append_drop, List.drop_replicate, List.drop_drop]
      simp only [List.length_replicate]
      have e1 : k - (k + min (N - k) data.length) = 0 := by omega
      have e2 : k + (k + min (N - k) data.length - k) =
          k + min (N - k) data.length := by omega
      rw [e1, e2]
      simp
    rw [hA, hC]
  rw [hr1, hposn]
  have hr1len : (List.replicate k (0 : Rat) ++
      data.take (min (N - k) data.length) ++
        output0.drop (k + min (N - k) data.length)).length = N := by
    simp
    omega
  rw [zeroRange_closed _ _ _ (by omega) (by rw [hr1len])]
  have hdropN : (List.replicate k (0 : Rat) ++
      data.take (min (N - k) data.length) ++
        output0.drop (k + min (N - k) data.length)).drop N = [] :=
    List.drop_eq_nil_of_le (by rw [hr1len])
  have htake : (List.replicate k (0 : Rat) ++
      data.take (min (N - k) data.length) ++
        output0.drop (k + min (N - k) data.length)).take
          (k + min (N - k) data.length) =
      List.replicate k 0 ++ data.take (min (N - k) data.length) :=
    List.take_left' (by simp)
  rw [hdropN, htake]
  have hmin : data.take (min (N - k) data.length) = data.take (N - k) := by
    rcases Nat.le_total (N - k) data.length with h | h
    · rw [Nat.min_eq_left h]
    · rw [Nat.min_eq_right h, List.take_of_length_le h,
        List.take_of_length_le (le_refl _)]
  have hcount : N - (k + min (N - k) data.length) =
      N - k - min (N - k) data.length := by omega
  rw [hmin, hcount]
  simp

/-- The rendering phase of renderAndSwap on an event-loop state left
Playing at cursor 0 by a note-on at offset start_frame. -/
theorem renderAndSwap_noteon (es : EvState) (N : Nat) (output0 : List Rat)
    (hplay : es.plug.play = true) (hframe : es.plug.frame = 0)
    (hk : es.start_frame ≤ N) (hout : output0.length = N)
    (hinv : es.plug.samp.data.length = es.plug.samp.info.frames) :
    (renderAndSwap es N output0).output =
        List.replicate es.start_frame 0 ++
          es.plug.samp.data.take (N - es.start_frame) ++
          List.replicate
            (N - es.start_frame -
              min (N - es.start_frame) es.plug.samp.data.length) 0 ∧
      ((renderAndSwap es N output0).plug.play = true ↔
        N - es.start_frame < es.plug.samp.data.length) := by
  unfold renderAndSwap
  dsimp only
  rw [if_pos hplay]
  constructor
  · rw [swapAndTail_output, hframe]
    exact render_block_closed output0 es.plug.samp.data N es.start_frame
      es.plug.samp.info.frames hk hout hinv
  · rw [swapAndTail_play]
    dsimp only
    rw [hframe, copyLoop_frame, hplay, ← hinv]
    simp only [Nat.sub_zero, Nat.zero_add]
    by_cases hcase : N - es.start_frame < es.plug.samp.data.length
    · rw [if_neg (by omega)]
      simp [hcase]
    · rw [if_pos (by omega)]
      simp [hcase]

/-- C1: in a block of length N whose event list ends with a note-on at
intra-block offset k (k at most N), run writes exactly k leading zeros,
then up to N - k successive samples of the active buffer starting at
frame 0, then zeros for the remaining offsets; and the call ends still
Playing exactly when the buffer is longer than N - k. -/
theorem noteon_renders_block (plugin : Sampler) (N k d : Nat)
    (evs : List Event) (output0 : List Rat)
    (hd : d &&& 0xF0 = 0x90) (hk : k ≤ N) (hout : output0.length = N)
    (hinv : plugin.samp.data.length = plugin.samp.info.frames) :
    (run plugin N (evs ++ [.midi k d]) output0).output =
        List.replicate k 0 ++ plugin.samp.data.take (N - k) ++
          List.replicate (N - k - min (N - k) plugin.samp.data.length) 0 ∧
      ((run plugin N (evs ++ [.midi k d]) output0).plug.play = true ↔
        N - k < plugin.samp.data.length) := by
  have hes : processEvents plugin (evs ++ [.midi k d]) =
      processEvent (processEvents plugin evs) (.midi k d) := by
    unfold processEvents
    rw [List.foldl_append]
    rfl
  have hnoteon : processEvent (processEvents plugin evs) (.midi k d) =
      { processEvents plugin evs with
        start_frame := k,
        plug := { (processEvents plugin evs).plug with
                  frame := 0, play := true } } := by
    simp [processEvent, hd]
  unfold run
  rw [hes, hnoteon]
  obtain ⟨h1, h2⟩ := renderAndSwap_noteon
    { processEvents plugin evs with
      start_frame := k,
      plug := { (processEvents plugin evs).plug with
                frame := 0, play := true } }
    N output0 rfl rfl hk hout
    (by dsimp only; rw [processEvents_samp]; exact hinv)
  constructor
  · rw [h1]
    dsimp only
    rw [processEvents_samp]
  · rw [h2]
    dsimp only
    rw [processEvents_samp]

/-- Witness for C1, the end-to-end scenario of the spec: note-on at
offset 0 in a block of length 6 over the 4-frame active buffer renders
[0.1, 0.2, 0.3, 0.4, 0, 0] and ends Idle. -/
theorem noteon_renders_block_witness :
    plugIdle.samp.data.length = plugIdle.samp.info.frames ∧
      (run plugIdle 6 [.midi 0 0x90] [5, 5, 5, 5, 5, 5]).output =
        [0.1, 0.2, 0.3, 0.4, 0, 0] ∧
      (run plugIdle 6 [.midi 0 0x90] [5, 5, 5, 5, 5, 5]).plug.play = false := by
  obtain ⟨h1, h2⟩ := noteon_renders_block plugIdle 6 0 0x90 [] [5, 5, 5, 5, 5, 5]
    (by decide) (by decide) (by decide) (by decide)
  refine ⟨by decide, ?_, ?_⟩
  · exact h1
  · cases hb : (run plugIdle 6 [.midi 0 0x90] [5, 5, 5, 5, 5, 5]).plug.play with
    | false => rfl
    | true =>
      exfalso
      have hlt := h2.mp hb
      have hlen : plugIdle.samp.data.length = 4 := rfl
      rw [hlen] at hlt
      omega

end EgSampler
